import Mathlib

/-!
Verification of the resource-tree resolver and relationship-wiring engine of
YAML2Diagram (`src/server/diagrams_as_code/entrypoint.py`).

The embedding models the two global accumulators (`resources`, `relationships`),
the recursive `process_resource` walk, and the wiring loop of `entrypoint`.
The external rendering backend (`diagrams` library) is modelled as a recording
backend: every call the code issues to it (`Cluster.__enter__`/`__exit__`,
`Edge(...)`, the `__lshift__`/`__rshift__`/`__sub__` attachment operators and
their mirrored `__r...__` forms) becomes an event in a trace.  Node and group
objects are modelled by allocation indices; `DiagramGroup` (external schema
package) is an insertion-ordered list of node indices held in a store, with
`add_node`/`get_nodes` as append/read.
-/

namespace Yaml2Diagram

/-- The `RelationDirection` enum consumed by the wiring loop. -/
inductive RelationDirection where
  | INCOMING
  | OUTGOING
  | BIDIRECTIONAL
  | UNDIRECTED
deriving DecidableEq

/-- One entry of a resource's `relates` list: target id (document-local),
direction and presentation hints (label/color/style, optional strings). -/
structure RelationDecl where
  to_ : String
  direction : RelationDirection
  label : Option String
  color : Option String
  style : Option String
deriving DecidableEq

mutual
/-- A `YamlDiagramResource`: local id, `type` tag (the strings `"cluster"`,
`"group"`, or a dotted element-type path), display name, children (`of`) and
declared relations (`relates`).  In the source `of` and `relates` are optional;
every use guards with `is not None` and then iterates, so an absent list and an
empty list drive the code identically — absence is embedded as the empty list. -/
inductive Resource where
  | mk (id : String) (type_ : String) (name : String)
       (of : ResourceList) (relates : List RelationDecl)

/-- A list of resources (the mutual companion of `Resource`, so that the
recursive walk is structural). -/
inductive ResourceList where
  | nil
  | cons (head : Resource) (tail : ResourceList)
end

/-- A value stored in the global `resources` dict: either a concrete node
instance (`get_diagram_node_class(...)(label=...)`, by allocation index) or a
`DiagramGroup` (by index into the group store). -/
inductive Handle where
  | node (ref : Nat)
  | group (ref : Nat)
deriving DecidableEq

/-- A `Relationship` record appended to the global backlog during the walk. -/
structure Relationship where
  from_ : String
  to_ : String
  direction : RelationDirection
  label : Option String
  color : Option String
  style : Option String
deriving DecidableEq

/-- The attachment operator used in a call to the rendering backend:
`lsh` is `__lshift__` (reverse-attachment, `<<`), `rsh` is `__rshift__`
(forward-attachment, `>>`), `sub` is `__sub__` (undirected attachment, `-`). -/
inductive CallOp where
  | lsh
  | rsh
  | sub
deriving DecidableEq

/-- The argument of an attachment call: the current connector (`edgeArg`), a
single node, a batch of member nodes (`get_nodes()` result), or the batch of
per-member edges returned by a mirrored edge call. -/
inductive CallArg where
  | edgeArg
  | nodeArg (n : Nat)
  | nodesArg (ns : List Nat)
  | edgesArg (ns : List Nat)
deriving DecidableEq

/-- One recorded interaction with the rendering backend or the global state:
cluster scope open/close, namespace registration, backlog append, connector
creation (`Edge(label=..., color=..., style=...)`), and the attachment calls.
For the attachment calls `mirrored` records whether the mirrored
(reverse-argument) `__r...__` dunder form was used. -/
inductive TraceEvent where
  | openScope (label : String)
  | closeScope
  | register (key : String)
  | recordRel (rel : Relationship)
  | newEdge (label color style : Option String)
  | nodeCall (recv : Nat) (op : CallOp) (mirrored : Bool) (arg : CallArg)
  | edgeCall (op : CallOp) (mirrored : Bool) (arg : CallArg)
deriving DecidableEq

/-- Errors of the run, after the source's taxonomy: an unresolvable leaf
`type` (the exception escaping `get_diagram_node_class`), an unresolved
relationship target (the `ValueError` at the wiring loop), and the
`AttributeError` Python would raise if the `from` instance were `None`
(unreachable for backlogs built by the walk, but the function is total). -/
inductive Err where
  | resourceTypeNotFound (path : String)
  | unresolvedTarget (name : String)
  | noneFromInstance
deriving DecidableEq

/-- The mutable state of one process: the global `resources` namespace (newest
binding first, looked up first-match, which is observationally Python's dict
for this code since the dict is only read via `get`), the global
`relationships` backlog, the store of `DiagramGroup` member lists, a fresh-node
counter, and the recorded backend trace. -/
structure St where
  resources : List (String × Handle)
  relationships : List Relationship
  groups : List (List Nat)
  nextNode : Nat
  trace : List TraceEvent
deriving DecidableEq

/-- The state of a freshly started process (module import time, lines 26-27). -/
def St.empty : St := ⟨[], [], [], 0, []⟩

/-- Dictionary lookup (`resources.get(key)`). -/
def nsGet : List (String × Handle) → String → Option Handle
  | [], _ => none
  | (k', v) :: rest, k => if k' = k then some v else nsGet rest k

/-- Build the `Relationship` record for one relation of a resource whose
resolved identifier is `from_` (the record constructed in both the group and
leaf branches of `process_resource`). -/
def relOf (from_ : String) (r : RelationDecl) : Relationship :=
  { from_ := from_
    to_ := "diagram." ++ r.to_
    direction := r.direction
    label := r.label
    color := r.color
    style := r.style }

/-- The `for relation in resource.relates` loop shared by the group and leaf
branches: append one `Relationship` per relation to the global backlog. -/
def appendRels (from_ : String) : List RelationDecl → St → St
  | [], st => st
  | r :: rest, st =>
      appendRels from_ rest
        { st with
          relationships := st.relationships ++ [relOf from_ r]
          trace := st.trace ++ [TraceEvent.recordRel (relOf from_ r)] }

/-- Step for `cluster = Cluster(label=resource.name); cluster.__enter__()`. -/
def clusterOpen (name : String) (st : St) : St :=
  { st with trace := st.trace ++ [TraceEvent.openScope name] }

/-- Step for `cluster.__exit__(None, None, None)`. -/
def clusterClose (st : St) : St :=
  { st with trace := st.trace ++ [TraceEvent.closeScope] }

/-- Step for `diagram_group = DiagramGroup()` followed by
`resources.update({key: diagram_group})`: allocate an empty group in the store
and bind the resolved identifier to it. -/
def registerGroup (key : String) (st : St) : St :=
  { st with
    groups := st.groups ++ [[]]
    resources := (key, Handle.group st.groups.length) :: st.resources
    trace := st.trace ++ [TraceEvent.register key] }

/-- Step for `resource_instance = get_diagram_node_class(...)(label=...)`
(the successful case) followed by `resources.update({key: resource_instance})`:
allocate a fresh node and bind the resolved identifier to it. -/
def registerNode (key : String) (st : St) : St :=
  { st with
    nextNode := st.nextNode + 1
    resources := (key, Handle.node st.nextNode) :: st.resources
    trace := st.trace ++ [TraceEvent.register key] }

/-- Step for `if group is not None: group.add_node(node=resource_instance)`. -/
def addToGroup (group : Option Nat) (nref : Nat) (st : St) : St :=
  match group with
  | none => st
  | some g => { st with groups := st.groups.set g (st.groups.getD g [] ++ [nref]) }

/-- The recursive `process_resource` walk over a list of resources, as invoked
in sequence (each top-level resource, or each element of an `of` list).  The
body of the `cons` case is the body of `process_resource` in the source,
followed by the next resource of the list; an error models the Python exception
propagating (later resources are not processed, and in the cluster branch
`cluster.__exit__` — which the source calls explicitly with no try/finally —
is skipped).  `catalog` models the external element catalog: whether
`get_diagram_node_class` resolves a dotted type path. -/
def process_list (catalog : String → Bool) :
    ResourceList → String → Option Nat → St → St × Option Err
  | .nil, _, _, st => (st, none)
  | .cons (.mk rid rty rname rof rrel) rest, parent_id, group, st =>
    if rty = "cluster" then
      match process_list catalog rof (parent_id ++ "." ++ rid) none
          (clusterOpen rname st) with
      | (st2, some err) => (st2, some err)   -- exception propagates; no __exit__
      | (st2, none) => process_list catalog rest parent_id group (clusterClose st2)
    else if rty = "group" then
      -- register the empty group first, then `relates`, then the children
      -- (children receive the group, `group=diagram_group`)
      match process_list catalog rof (parent_id ++ "." ++ rid)
          (some st.groups.length)
          (appendRels (parent_id ++ "." ++ rid) rrel
            (registerGroup (parent_id ++ "." ++ rid) st)) with
      | (st3, some err) => (st3, some err)
      | (st3, none) => process_list catalog rest parent_id group st3
    else
      if catalog rty then
        -- construct and register the node, then `relates`, then `add_node`
        process_list catalog rest parent_id group
          (addToGroup group st.nextNode
            (appendRels (parent_id ++ "." ++ rid) rrel
              (registerNode (parent_id ++ "." ++ rid) st)))
      else
        -- the exception escaping get_diagram_node_class: nothing registered
        (st, some (Err.resourceTypeNotFound rty))

/-- Scan step of `stripDiagramAll`: does the pattern lead the character list? -/
def leadMatch : List Char → List Char → Bool
  | [], _ => true
  | _ :: _, [] => false
  | p :: ps, c :: cs => p = c && leadMatch ps cs

/-- Worker for `stripDiagramAll`.  The fuel starts at the length of the list;
every step consumes at least one character, so the scan is faithful whenever
the fuel dominates the length. -/
def stripDiagramAllAux (pat : List Char) : Nat → List Char → List Char
  | 0, l => l
  | _ + 1, [] => []
  | fuel + 1, c :: cs =>
    if leadMatch pat (c :: cs) then
      stripDiagramAllAux pat fuel ((c :: cs).drop pat.length)
    else
      c :: stripDiagramAllAux pat fuel cs

/-- Models the Python expression `relationship.to.replace('diagram.', '')` on
the error path of the wiring loop: remove every occurrence of `"diagram."`,
scanning left to right (Python `str.replace` replaces all occurrences, not
only a leading one). -/
def stripDiagramAll (s : String) : String :=
  ⟨stripDiagramAllAux "diagram.".toList s.toList.length s.toList⟩

/-- One iteration of the `for relationship in relationships` wiring loop of
`entrypoint` (source lines 175-247): create the connector, resolve both
endpoints, classify them (`isinstance(..., DiagramGroup)`), and issue the
per-direction attachment calls.  Returns the backend events issued for this
relationship and the error, if any, that aborts the run.  A relationship whose
endpoints are both groups matches none of the three `if` branches and issues
no attachment call at all. -/
def wireOne (resources : List (String × Handle)) (groups : List (List Nat))
    (rel : Relationship) : List TraceEvent × Option Err :=
  -- edge = Edge(label=..., color=..., style=...)
  let ev0 := [TraceEvent.newEdge rel.label rel.color rel.style]
  match nsGet resources rel.to_ with
  | none =>
    -- raise ValueError(... relationship.to.replace('diagram.', '') ...)
    (ev0, some (Err.unresolvedTarget (stripDiagramAll rel.to_)))
  | some toH =>
    match nsGet resources rel.from_, toH with
    | none, _ =>
      -- resources.get returned None for `from`; the first dunder call raises
      (ev0, some Err.noneFromInstance)
    | some (Handle.node a), Handle.node b =>
      (ev0 ++
        (match rel.direction with
         | .INCOMING =>
             [TraceEvent.nodeCall a .lsh false .edgeArg,
              TraceEvent.edgeCall .lsh false (.nodeArg b)]
         | .OUTGOING =>
             [TraceEvent.nodeCall a .rsh false .edgeArg,
              TraceEvent.edgeCall .rsh false (.nodeArg b)]
         | .BIDIRECTIONAL =>
             [TraceEvent.nodeCall a .rsh false .edgeArg,
              TraceEvent.edgeCall .lsh false (.nodeArg b)]
         | .UNDIRECTED =>
             [TraceEvent.nodeCall a .sub false .edgeArg,
              TraceEvent.edgeCall .sub false (.nodeArg b)]), none)
    | some (Handle.group g), Handle.node b =>
      -- group_nodes = resource_from_instance.get_nodes()
      let ms := groups.getD g []
      (ev0 ++
        (match rel.direction with
         | .INCOMING =>
             [TraceEvent.edgeCall .lsh true (.nodesArg ms),
              TraceEvent.nodeCall b .lsh true (.edgesArg ms)]
         | .OUTGOING =>
             [TraceEvent.edgeCall .rsh true (.nodesArg ms),
              TraceEvent.nodeCall b .rsh true (.edgesArg ms)]
         | .BIDIRECTIONAL =>
             [TraceEvent.edgeCall .rsh true (.nodesArg ms),
              TraceEvent.nodeCall b .lsh true (.edgesArg ms)]
         | .UNDIRECTED =>
             [TraceEvent.edgeCall .sub true (.nodesArg ms),
              TraceEvent.nodeCall b .sub true (.edgesArg ms)]), none)
    | some (Handle.node a), Handle.group g =>
      -- group_nodes = resource_to_instance.get_nodes()
      let ms := groups.getD g []
      (ev0 ++
        (match rel.direction with
         | .INCOMING =>
             [TraceEvent.nodeCall a .lsh false .edgeArg,
              TraceEvent.edgeCall .lsh false (.nodesArg ms)]
         | .OUTGOING =>
             [TraceEvent.nodeCall a .rsh false .edgeArg,
              TraceEvent.edgeCall .rsh false (.nodesArg ms)]
         | .BIDIRECTIONAL =>
             [TraceEvent.nodeCall a .rsh false .edgeArg,
              TraceEvent.edgeCall .lsh false (.nodesArg ms)]
         | .UNDIRECTED =>
             [TraceEvent.nodeCall a .sub false .edgeArg,
              TraceEvent.edgeCall .sub false (.nodesArg ms)]), none)
    | some (Handle.group _), Handle.group _ =>
      -- matches none of the three endpoint-shape branches: falls through
      (ev0, none)

/-- The whole wiring loop: wire each backlog record in order, stopping at the
first error (the Python exception aborts the loop; events already issued
persist). -/
def wireAll (resources : List (String × Handle)) (groups : List (List Nat)) :
    List Relationship → List TraceEvent × Option Err
  | [] => ([], none)
  | rel :: rest =>
    match wireOne resources groups rel with
    | (evs, some err) => (evs, some err)
    | (evs, none) =>
      match wireAll resources groups rest with
      | (evs', e') => (evs ++ evs', e')

/-- The `entrypoint` function after document parsing (the YAML load, schema
validation and the `Diagram` styling are external): process every top-level
resource with parent identifier `"diagram"`, then wire the accumulated global
backlog; only when no exception was raised, reset the global `resources` and
`relationships` (source lines 248-249 — on an exception those lines never
run).  The returned state models the module-level globals after the call. -/
def entrypoint (catalog : String → Bool) (doc : ResourceList) (st : St) :
    St × Option Err :=
  match process_list catalog doc "diagram" none st with
  | (st1, some err) => (st1, some err)
  | (st1, none) =>
    match wireAll st1.resources st1.groups st1.relationships with
    | (evs, e') =>
      let st2 := { st1 with trace := st1.trace ++ evs }
      match e' with
      | some err => (st2, some err)
      | none => ({ st2 with resources := [], relationships := [] }, none)

/-- Number of cluster-scope opens (`Cluster.__enter__` calls) in a trace. -/
def countOpens (tr : List TraceEvent) : Nat :=
  (tr.filter fun e => match e with | .openScope _ => true | _ => false).length

/-- Number of cluster-scope closes (`Cluster.__exit__` calls) in a trace. -/
def countCloses (tr : List TraceEvent) : Nat :=
  (tr.filter fun e => match e with | .closeScope => true | _ => false).length

/-- Whether a trace event is an attachment call issued to the backend. -/
def isAttachCall : TraceEvent → Bool
  | .nodeCall _ _ _ _ => true
  | .edgeCall _ _ _ => true
  | _ => false

/-- Models the rendering backend's expansion of one issued call into the
individual member attachments it materializes (spec: the batch form gives
every member its own edge).  A plain edge call on a single node or on a batch
of member nodes attaches the connector to each; a mirrored node call on a
batch of per-member edges attaches each of those edges; a mirrored edge call
only creates the per-member edges (the following node call attaches them), so
it contributes no attachment of its own. -/
def eventPairs : TraceEvent → List (CallOp × Nat)
  | .edgeCall op false (.nodeArg b) => [(op, b)]
  | .edgeCall op false (.nodesArg ms) => ms.map fun m => (op, m)
  | .nodeCall _ op true (.edgesArg ms) => ms.map fun m => (op, m)
  | _ => []

/-- The individual attachment pairs materialized by the event block of one
relationship, each tagged with the label/color/style of the block's connector
(the backend copies the connector's attributes onto every per-member edge). -/
def blockPairs (evs : List TraceEvent) :
    List (CallOp × Nat × Option String × Option String × Option String) :=
  match evs with
  | TraceEvent.newEdge l c s :: rest =>
      ((rest.map eventPairs).flatten).map fun p => (p.1, p.2, l, c, s)
  | _ => []

/-- Whether every batch-carrying attachment call of a trace uses the mirrored
(reverse-argument) dunder form. -/
def batchCallsMirrored (evs : List TraceEvent) : Bool :=
  evs.all fun e =>
    match e with
    | .edgeCall _ m (.nodesArg _) => m
    | .edgeCall _ m (.edgesArg _) => m
    | .nodeCall _ _ m (.nodesArg _) => m
    | .nodeCall _ _ m (.edgesArg _) => m
    | _ => true

/-- Specification-side description of the backlog built by the walk, written
after the ordering guarantee of the spec: a pre-order traversal of the
document in which a resource's own relations are appended before its
children's (`relates` is processed before recursing into `of`).  A cluster
contributes only its descendants' records (the cluster branch never reads
`relates`), and a leaf contributes only its own (the leaf branch never
recurses). -/
def preorderRels : ResourceList → String → List Relationship
  | .nil, _ => []
  | .cons (.mk rid rty _ rof rrel) rest, p =>
    (if rty = "cluster" then
      preorderRels rof (p ++ "." ++ rid)
     else if rty = "group" then
      rrel.map (relOf (p ++ "." ++ rid)) ++ preorderRels rof (p ++ "." ++ rid)
     else
      rrel.map (relOf (p ++ "." ++ rid)))
    ++ preorderRels rest p

/-- The per-member attachment operator applied to a collection endpoint, per
direction (read off the wiring branches: the call that materializes the
member edges). -/
def memberAttachOp : RelationDirection → CallOp
  | .INCOMING => .lsh
  | .OUTGOING => .rsh
  | .BIDIRECTIONAL => .lsh
  | .UNDIRECTED => .sub

/-- A catalog in which every dotted type path resolves. -/
def catAll : String → Bool := fun _ => true

/-- Concrete document: one cluster containing a leaf whose type the catalog
will fail to resolve. -/
def docC1 : ResourceList :=
  .cons (.mk "c" "cluster" "C"
    (.cons (.mk "x" "aws.analytics.Analytics" "X" .nil []) .nil) []) .nil

/-- Concrete namespace with two resolved leaf nodes. -/
def nsC2 : List (String × Handle) := [("diagram.a", .node 0), ("diagram.b", .node 1)]

/-- Concrete single-to-single relationship between the two nodes of `nsC2`. -/
def relC2 : Relationship :=
  { from_ := "diagram.a", to_ := "diagram.b", direction := .BIDIRECTIONAL,
    label := some "l", color := some "red", style := none }

/-- Concrete namespace with a leaf node and a group. -/
def nsC3 : List (String × Handle) := [("diagram.a", .node 0), ("diagram.g", .group 0)]

/-- Concrete group store: group `0` has two members. -/
def gsC3 : List (List Nat) := [[1, 2]]

/-- Concrete leaf-to-group relationship (`to` resolves to the group). -/
def relC3 : Relationship :=
  { from_ := "diagram.a", to_ := "diagram.g", direction := .OUTGOING,
    label := some "fan", color := none, style := some "dashed" }

/-- Concrete document: a single leaf whose relation targets the document-local
name `"diagram.ghost"`, which resolves nowhere.  The backlog record's target is
`"diagram." ++ "diagram.ghost"`. -/
def docC4 : ResourceList :=
  .cons (.mk "a" "p.c.S" "A" .nil
    [{ to_ := "diagram.ghost", direction := .OUTGOING,
       label := none, color := none, style := none }]) .nil

/-- Concrete namespace with two groups. -/
def nsC6 : List (String × Handle) := [("diagram.g1", .group 0), ("diagram.g2", .group 1)]

/-- Concrete group-to-group relationship between the groups of `nsC6`. -/
def relC6 : Relationship :=
  { from_ := "diagram.g1", to_ := "diagram.g2", direction := .OUTGOING,
    label := none, color := none, style := none }

/-- Concrete document: two groups of one member each, the first relating to the
second (a collection-to-collection relationship). -/
def docC6 : ResourceList :=
  .cons (.mk "g1" "group" "G1"
      (.cons (.mk "m1" "p.c.S" "M1" .nil []) .nil)
      [{ to_ := "g2", direction := .OUTGOING, label := none, color := none, style := none }])
    (.cons (.mk "g2" "group" "G2"
      (.cons (.mk "m2" "p.c.S" "M2" .nil []) .nil) []) .nil)

/-- Concrete document: two sibling leaves, each with one relation, in
declaration order `a` before `b`. -/
def docC7 : ResourceList :=
  .cons (.mk "a" "p.c.S" "A" .nil
    [{ to_ := "b", direction := .OUTGOING, label := none, color := none, style := none }])
  (.cons (.mk "b" "p.c.S" "B" .nil
    [{ to_ := "a", direction := .OUTGOING, label := none, color := none, style := none }]) .nil)

/-- Concrete document whose run aborts at wiring time (target `"ghost"` is
absent). -/
def docC9fail : ResourceList :=
  .cons (.mk "a" "p.c.S" "A" .nil
    [{ to_ := "ghost", direction := .OUTGOING,
       label := none, color := none, style := none }]) .nil

/-- Concrete independent second document: a single leaf, no relations. -/
def docC9clean : ResourceList := .cons (.mk "b" "p.c.S" "B" .nil []) .nil


/-- Whether a resource tree contains a leaf whose `type` the catalog cannot
resolve (a cluster or group looks in its children; a leaf checks its own
type). -/
def hasUnresolvableLeaf (catalog : String → Bool) : ResourceList → Bool
  | .nil => false
  | .cons (.mk _ t _ rof _) rest =>
    (if t = "cluster" then hasUnresolvableLeaf catalog rof
     else if t = "group" then hasUnresolvableLeaf catalog rof
     else !catalog t) || hasUnresolvableLeaf catalog rest

/-- Structural induction principle for resource lists: the property may be
assumed for a head resource's children and for the tail. -/
theorem resourceList_ind (P : ResourceList → Prop)
    (hnil : P .nil)
    (hcons : ∀ i t n of rel rest, P of → P rest →
      P (.cons (.mk i t n of rel) rest)) :
    ∀ rs, P rs :=
  @ResourceList.rec (fun r => ∀ rest, P rest → P (.cons r rest)) P
    (fun i t n of rel ih rest hrest => hcons i t n of rel rest ih hrest)
    hnil
    (fun _ _ ihh iht => ihh _ iht)

theorem appendRels_resources (f : String) (rels : List RelationDecl) (st : St) :
    (appendRels f rels st).resources = st.resources := by
  induction rels generalizing st with
  | nil => rfl
  | cons r rest ih => simp [appendRels, ih]

theorem appendRels_groups (f : String) (rels : List RelationDecl) (st : St) :
    (appendRels f rels st).groups = st.groups := by
  induction rels generalizing st with
  | nil => rfl
  | cons r rest ih => simp [appendRels, ih]

theorem appendRels_nextNode (f : String) (rels : List RelationDecl) (st : St) :
    (appendRels f rels st).nextNode = st.nextNode := by
  induction rels generalizing st with
  | nil => rfl
  | cons r rest ih => simp [appendRels, ih]

theorem appendRels_relationships (f : String) (rels : List RelationDecl) (st : St) :
    (appendRels f rels st).relationships =
      st.relationships ++ rels.map (relOf f) := by
  induction rels generalizing st with
  | nil => simp [appendRels]
  | cons r rest ih => simp [appendRels, ih]

theorem appendRels_trace (f : String) (rels : List RelationDecl) (st : St) :
    (appendRels f rels st).trace =
      st.trace ++ rels.map fun r => TraceEvent.recordRel (relOf f r) := by
  induction rels generalizing st with
  | nil => simp [appendRels]
  | cons r rest ih => simp [appendRels, ih]

theorem addToGroup_resources (g : Option Nat) (nref : Nat) (st : St) :
    (addToGroup g nref st).resources = st.resources := by
  cases g <;> rfl

theorem addToGroup_relationships (g : Option Nat) (nref : Nat) (st : St) :
    (addToGroup g nref st).relationships = st.relationships := by
  cases g <;> rfl

theorem addToGroup_trace (g : Option Nat) (nref : Nat) (st : St) :
    (addToGroup g nref st).trace = st.trace := by
  cases g <;> rfl

theorem length_le_key (p i : String) : p.length ≤ (p ++ "." ++ i).length := by
  have hdot : ("." : String).length = 1 := rfl
  rw [String.length_append, String.length_append, hdot]
  omega

theorem key_ne_of_short (p i k : String) (hk : k.length ≤ p.length) :
    ¬(p ++ "." ++ i = k) := by
  intro he
  have h1 : (p ++ "." ++ i).length = p.length + (1 + i.length) := by
    have hdot : ("." : String).length = 1 := rfl
    rw [String.length_append, String.length_append, hdot]
    omega
  rw [he] at h1
  omega

/-- Whole-run refinement of the backlog: a successful walk appends exactly the
pre-order relationship records described by `preorderRels`, in that order. -/
theorem process_list_rels :
    ∀ (rs : ResourceList) (catalog : String → Bool) (p : String)
      (g : Option Nat) (st st' : St),
      process_list catalog rs p g st = (st', none) →
      st'.relationships = st.relationships ++ preorderRels rs p := by
  intro rs
  induction rs using resourceList_ind with
  | hnil =>
    intro catalog p g st st' h
    simp only [process_list] at h
    cases h
    simp [preorderRels]
  | hcons i t n of rel rest ihof ihrest =>
    intro catalog p g st st' h
    simp only [process_list] at h
    split_ifs at h with ht hg hcat
    · -- cluster branch
      split at h
      · simp at h
      · rename_i st2 heq
        have h2 := ihof catalog (p ++ "." ++ i) none _ _ heq
        have h3 := ihrest catalog p g _ _ h
        simp only [clusterOpen, clusterClose] at h2 h3
        rw [h3, h2]
        simp [preorderRels, ht]
    · -- group branch
      split at h
      · simp at h
      · rename_i st3 heq
        have h2 := ihof catalog (p ++ "." ++ i) _ _ _ heq
        have h3 := ihrest catalog p g _ _ h
        rw [h3, h2, appendRels_relationships]
        simp [preorderRels, ht, hg, registerGroup]
    · -- leaf branch, type resolves
      have h3 := ihrest catalog p g _ _ h
      rw [h3, addToGroup_relationships, appendRels_relationships]
      simp [preorderRels, ht, hg, registerNode]
    · -- leaf branch, type fails to resolve: contradicts success
      simp at h

/-- Bindings at identifiers no longer than the parent identifier are untouched
by the walk: every registration uses a strictly longer resolved identifier. -/
theorem process_list_nsGet :
    ∀ (rs : ResourceList) (catalog : String → Bool) (p : String)
      (g : Option Nat) (st : St) (k : String), k.length ≤ p.length →
      nsGet (process_list catalog rs p g st).1.resources k
        = nsGet st.resources k := by
  intro rs
  induction rs using resourceList_ind with
  | hnil => intro catalog p g st k hk; simp [process_list]
  | hcons i t n of rel rest ihof ihrest =>
    intro catalog p g st k hk
    have hk2 : k.length ≤ (p ++ "." ++ i).length :=
      le_trans hk (length_le_key p i)
    have hne := key_ne_of_short p i k hk
    simp only [process_list]
    split_ifs with ht hg hcat
    · -- cluster branch
      split
      · rename_i st2 err heq
        have h1 := ihof catalog (p ++ "." ++ i) none (clusterOpen n st) k hk2
        rw [heq] at h1
        simpa [clusterOpen] using h1
      · rename_i st2 heq
        have h1 := ihof catalog (p ++ "." ++ i) none (clusterOpen n st) k hk2
        rw [heq] at h1
        simp only [clusterOpen] at h1
        rw [ihrest catalog p g _ k hk]
        simpa [clusterClose] using h1
    · -- group branch
      have h1 := ihof catalog (p ++ "." ++ i) (some st.groups.length)
        (appendRels (p ++ "." ++ i) rel (registerGroup (p ++ "." ++ i) st)) k hk2
      rw [appendRels_resources] at h1
      split
      · rename_i st3 err heq
        rw [heq] at h1
        simpa [registerGroup, nsGet, hne] using h1
      · rename_i st3 heq
        rw [heq] at h1
        simp only [] at h1
        rw [ihrest catalog p g _ k hk, h1]
        simp [registerGroup, nsGet, hne]
    · -- leaf branch, type resolves
      rw [ihrest catalog p g _ k hk, addToGroup_resources, appendRels_resources]
      simp [registerNode, nsGet, hne]
    · rfl

/-- The walk only appends to the recorded trace. -/
theorem process_list_trace :
    ∀ (rs : ResourceList) (catalog : String → Bool) (p : String)
      (g : Option Nat) (st : St),
      ∃ tr, (process_list catalog rs p g st).1.trace = st.trace ++ tr := by
  intro rs
  induction rs using resourceList_ind with
  | hnil => intro catalog p g st; exact ⟨[], by simp [process_list]⟩
  | hcons i t n of rel rest ihof ihrest =>
    intro catalog p g st
    simp only [process_list]
    split_ifs with ht hg hcat
    · -- cluster branch
      split
      · rename_i st2 err heq
        obtain ⟨tr1, h1⟩ := ihof catalog (p ++ "." ++ i) none (clusterOpen n st)
        rw [heq] at h1
        exact ⟨TraceEvent.openScope n :: tr1, by simpa [clusterOpen] using h1⟩
      · rename_i st2 heq
        obtain ⟨tr1, h1⟩ := ihof catalog (p ++ "." ++ i) none (clusterOpen n st)
        rw [heq] at h1
        simp only [clusterOpen] at h1
        obtain ⟨tr2, h2⟩ := ihrest catalog p g (clusterClose st2)
        refine ⟨TraceEvent.openScope n :: tr1 ++ (TraceEvent.closeScope :: tr2), ?_⟩
        rw [h2]
        simp [clusterClose, h1]
    · -- group branch
      obtain ⟨tr1, h1⟩ := ihof catalog (p ++ "." ++ i) (some st.groups.length)
        (appendRels (p ++ "." ++ i) rel (registerGroup (p ++ "." ++ i) st))
      rw [appendRels_trace] at h1
      split
      · rename_i st3 err heq
        rw [heq] at h1
        simp only [] at h1
        refine ⟨TraceEvent.register (p ++ "." ++ i) ::
          ((rel.map fun r => TraceEvent.recordRel (relOf (p ++ "." ++ i) r)) ++ tr1), ?_⟩
        rw [h1]
        simp [registerGroup]
      · rename_i st3 heq
        rw [heq] at h1
        simp only [] at h1
        obtain ⟨tr2, h2⟩ := ihrest catalog p g st3
        refine ⟨TraceEvent.register (p ++ "." ++ i) ::
          ((rel.map fun r => TraceEvent.recordRel (relOf (p ++ "." ++ i) r)) ++ tr1 ++ tr2), ?_⟩
        rw [h2, h1]
        simp [registerGroup]
    · -- leaf branch, type resolves
      obtain ⟨tr2, h2⟩ := ihrest catalog p g
        (addToGroup g st.nextNode
          (appendRels (p ++ "." ++ i) rel (registerNode (p ++ "." ++ i) st)))
      refine ⟨TraceEvent.register (p ++ "." ++ i) ::
        ((rel.map fun r => TraceEvent.recordRel (relOf (p ++ "." ++ i) r)) ++ tr2), ?_⟩
      rw [h2, addToGroup_trace, appendRels_trace]
      simp [registerNode]
    · exact ⟨[], by simp⟩

/-- A successful wiring pass issues exactly the per-relationship event blocks,
concatenated in backlog order. -/
theorem wireAll_flatten :
    ∀ (rels : List Relationship) (R : List (String × Handle))
      (G : List (List Nat)) (evs : List TraceEvent),
      wireAll R G rels = (evs, none) →
      evs = (rels.map fun rel => (wireOne R G rel).1).flatten := by
  intro rels R G
  induction rels with
  | nil =>
    intro evs h
    simp only [wireAll] at h
    cases h
    simp
  | cons rel rest ih =>
    intro evs h
    simp only [wireAll] at h
    cases hw1 : wireOne R G rel with
    | mk evs1 e1 =>
      rw [hw1] at h
      cases e1 with
      | some err => simp at h
      | none =>
        cases hw2 : wireAll R G rest with
        | mk evs2 e2 =>
          rw [hw2] at h
          simp only [] at h
          injection h with h1 h2
          subst h1
          subst h2
          rw [ih evs2 hw2]
          simp [hw1]

/-- Whenever the tree contains a leaf whose type the catalog cannot resolve,
the walk returns an error: either that leaf's own failure, or a failure raised
even earlier — there is no way to complete successfully. -/
theorem process_list_err_of_bad_leaf :
    ∀ (rs : ResourceList) (catalog : String → Bool) (p : String)
      (g : Option Nat) (st : St),
      hasUnresolvableLeaf catalog rs = true →
      ((process_list catalog rs p g st).2).isSome = true := by
  intro rs
  induction rs using resourceList_ind with
  | hnil => intro catalog p g st h; simp [hasUnresolvableLeaf] at h
  | hcons i t n of rel rest ihof ihrest =>
    intro catalog p g st h
    simp only [hasUnresolvableLeaf, Bool.or_eq_true] at h
    simp only [process_list]
    split_ifs with ht hg hcat
    · -- cluster
      rw [ht] at h
      simp only [if_pos rfl] at h
      split
      · simp
      · rename_i st2 heq
        rcases h with hof | hrest
        · have := ihof catalog (p ++ "." ++ i) none (clusterOpen n st) hof
          rw [heq] at this
          simp at this
        · exact ihrest catalog p g (clusterClose st2) hrest
    · -- group
      rw [if_neg ht, if_pos hg] at h
      split
      · simp
      · rename_i st3 heq
        rcases h with hof | hrest
        · have := ihof catalog (p ++ "." ++ i) (some st.groups.length)
            (appendRels (p ++ "." ++ i) rel (registerGroup (p ++ "." ++ i) st)) hof
          rw [heq] at this
          simp at this
        · exact ihrest catalog p g st3 hrest
    · -- leaf, resolves: the unresolvable leaf is further on
      rw [if_neg ht, if_neg hg] at h
      rcases h with hbad | hrest
      · rw [hcat] at hbad
        simp at hbad
      · exact ihrest catalog p g _ hrest
    · simp

theorem process_list_nil_eq (catalog : String → Bool) (p : String)
    (g : Option Nat) (st : St) :
    process_list catalog .nil p g st = (st, none) := rfl

theorem process_list_cluster_eq (catalog : String → Bool) (i n : String)
    (rof : ResourceList) (rrel : List RelationDecl) (rest : ResourceList)
    (p : String) (g : Option Nat) (st : St) :
    process_list catalog (.cons (.mk i "cluster" n rof rrel) rest) p g st =
      match process_list catalog rof (p ++ "." ++ i) none (clusterOpen n st) with
      | (st2, some err) => (st2, some err)
      | (st2, none) => process_list catalog rest p g (clusterClose st2) := rfl

theorem process_list_group_eq (catalog : String → Bool) (i n : String)
    (rof : ResourceList) (rrel : List RelationDecl) (rest : ResourceList)
    (p : String) (g : Option Nat) (st : St) :
    process_list catalog (.cons (.mk i "group" n rof rrel) rest) p g st =
      match process_list catalog rof (p ++ "." ++ i) (some st.groups.length)
          (appendRels (p ++ "." ++ i) rrel (registerGroup (p ++ "." ++ i) st)) with
      | (st3, some err) => (st3, some err)
      | (st3, none) => process_list catalog rest p g st3 := rfl

/-- C1.  The claim says the number of scope-open calls equals the number of
scope-close calls even for a failing run.  The code calls `cluster.__enter__()`
and `cluster.__exit__(...)` explicitly with no try/finally, so when resolving a
descendant raises, the close is skipped: on a cluster containing a leaf whose
type the catalog cannot resolve, the run fails having issued one scope open
and zero scope closes. -/
theorem c1_cluster_scope_left_open_on_error :
    countOpens (process_list (fun _ => false) docC1 "diagram" none St.empty).1.trace = 1 ∧
    countCloses (process_list (fun _ => false) docC1 "diagram" none St.empty).1.trace = 0 ∧
    (process_list (fun _ => false) docC1 "diagram" none St.empty).2 =
      some (Err.resourceTypeNotFound "aws.analytics.Analytics") := by
  decide

/-- C2.  For a relationship whose endpoints both resolve to single nodes, the
wiring loop issues exactly the connector creation followed by two attachment
calls fixed by the direction: `INCOMING` two reverse-attachments (`__lshift__`),
`OUTGOING` two forward-attachments (`__rshift__`), `BIDIRECTIONAL` one forward
then one reverse, `UNDIRECTED` two undirected attachments (`__sub__`); no
error is raised. -/
theorem c2_direction_mapping (R : List (String × Handle)) (G : List (List Nat))
    (rel : Relationship) (a b : Nat)
    (hf : nsGet R rel.from_ = some (Handle.node a))
    (ht : nsGet R rel.to_ = some (Handle.node b)) :
    wireOne R G rel =
      (TraceEvent.newEdge rel.label rel.color rel.style ::
        (match rel.direction with
         | .INCOMING => [TraceEvent.nodeCall a .lsh false .edgeArg,
                         TraceEvent.edgeCall .lsh false (.nodeArg b)]
         | .OUTGOING => [TraceEvent.nodeCall a .rsh false .edgeArg,
                         TraceEvent.edgeCall .rsh false (.nodeArg b)]
         | .BIDIRECTIONAL => [TraceEvent.nodeCall a .rsh false .edgeArg,
                              TraceEvent.edgeCall .lsh false (.nodeArg b)]
         | .UNDIRECTED => [TraceEvent.nodeCall a .sub false .edgeArg,
                           TraceEvent.edgeCall .sub false (.nodeArg b)]), none) := by
  cases hd : rel.direction <;> simp [wireOne, hf, ht, hd]

theorem c2_direction_mapping_witness :
    wireOne nsC2 [] relC2 =
      ([TraceEvent.newEdge (some "l") (some "red") none,
        TraceEvent.nodeCall 0 .rsh false .edgeArg,
        TraceEvent.edgeCall .lsh false (.nodeArg 1)], none) :=
  c2_direction_mapping nsC2 [] relC2 0 1 (by decide) (by decide)

/-- C3 counterexample.  The claim says a relationship with exactly one
collection endpoint fans out using the mirrored (reverse-argument) form of the
attachment primitive on the collection side.  For a leaf-to-group relationship
the code calls the plain (non-mirrored) `edge.__lshift__`/`__rshift__`/`__sub__`
with the member list as argument: on a concrete leaf-to-group `OUTGOING`
relationship with two members, the batch-carrying call is issued with the
mirrored flag `false`. -/
theorem c3_claim_counterexample :
    nsGet nsC3 relC3.from_ = some (Handle.node 0) ∧
    nsGet nsC3 relC3.to_ = some (Handle.group 0) ∧
    (wireOne nsC3 gsC3 relC3).1 =
      [TraceEvent.newEdge (some "fan") none (some "dashed"),
       TraceEvent.nodeCall 0 .rsh false .edgeArg,
       TraceEvent.edgeCall .rsh false (.nodesArg [1, 2])] ∧
    batchCallsMirrored (wireOne nsC3 gsC3 relC3).1 = false := by
  decide

/-- C3 amended.  A relationship with exactly one collection endpoint is fanned
out to every member of the collection: when the collection is the `to` side the
code uses the plain attachment forms with the member batch as argument, and
when the collection is the `from` side it uses the mirrored (reverse-argument)
forms on both calls.  Either way, a collection of N members produces exactly N
individual attachment pairs, each carrying the relationship's label, color and
style, with the per-member attachment operator fixed by the direction. -/
theorem c3_fanout_amended :
    (∀ (R : List (String × Handle)) (G : List (List Nat)) (rel : Relationship) (a g : Nat),
      nsGet R rel.from_ = some (Handle.node a) →
      nsGet R rel.to_ = some (Handle.group g) →
      wireOne R G rel =
        (TraceEvent.newEdge rel.label rel.color rel.style ::
          (match rel.direction with
           | .INCOMING => [TraceEvent.nodeCall a .lsh false .edgeArg,
                           TraceEvent.edgeCall .lsh false (.nodesArg (G.getD g []))]
           | .OUTGOING => [TraceEvent.nodeCall a .rsh false .edgeArg,
                           TraceEvent.edgeCall .rsh false (.nodesArg (G.getD g []))]
           | .BIDIRECTIONAL => [TraceEvent.nodeCall a .rsh false .edgeArg,
                                TraceEvent.edgeCall .lsh false (.nodesArg (G.getD g []))]
           | .UNDIRECTED => [TraceEvent.nodeCall a .sub false .edgeArg,
                             TraceEvent.edgeCall .sub false (.nodesArg (G.getD g []))]), none) ∧
      blockPairs (wireOne R G rel).1 =
        (G.getD g []).map fun m =>
          (memberAttachOp rel.direction, m, rel.label, rel.color, rel.style)) ∧
    (∀ (R : List (String × Handle)) (G : List (List Nat)) (rel : Relationship) (g b : Nat),
      nsGet R rel.from_ = some (Handle.group g) →
      nsGet R rel.to_ = some (Handle.node b) →
      wireOne R G rel =
        (TraceEvent.newEdge rel.label rel.color rel.style ::
          (match rel.direction with
           | .INCOMING => [TraceEvent.edgeCall .lsh true (.nodesArg (G.getD g [])),
                           TraceEvent.nodeCall b .lsh true (.edgesArg (G.getD g []))]
           | .OUTGOING => [TraceEvent.edgeCall .rsh true (.nodesArg (G.getD g [])),
                           TraceEvent.nodeCall b .rsh true (.edgesArg (G.getD g []))]
           | .BIDIRECTIONAL => [TraceEvent.edgeCall .rsh true (.nodesArg (G.getD g [])),
                                TraceEvent.nodeCall b .lsh true (.edgesArg (G.getD g []))]
           | .UNDIRECTED => [TraceEvent.edgeCall .sub true (.nodesArg (G.getD g [])),
                             TraceEvent.nodeCall b .sub true (.edgesArg (G.getD g []))]), none) ∧
      blockPairs (wireOne R G rel).1 =
        (G.getD g []).map fun m =>
          (memberAttachOp rel.direction, m, rel.label, rel.color, rel.style)) := by
  constructor
  · intro R G rel a g hf ht
    constructor
    · cases hd : rel.direction <;> simp [wireOne, hf, ht, hd]
    · cases hd : rel.direction <;>
        simp [wireOne, hf, ht, hd, blockPairs, eventPairs, memberAttachOp]
  · intro R G rel g b hf ht
    constructor
    · cases hd : rel.direction <;> simp [wireOne, hf, ht, hd]
    · cases hd : rel.direction <;>
        simp [wireOne, hf, ht, hd, blockPairs, eventPairs, memberAttachOp]

theorem c3_fanout_amended_witness :
    (wireOne nsC3 gsC3 relC3 =
      (TraceEvent.newEdge (some "fan") none (some "dashed") ::
        [TraceEvent.nodeCall 0 .rsh false .edgeArg,
         TraceEvent.edgeCall .rsh false (.nodesArg [1, 2])], none) ∧
     blockPairs (wireOne nsC3 gsC3 relC3).1 =
       [(.rsh, 1, some "fan", none, some "dashed"),
        (.rsh, 2, some "fan", none, some "dashed")]) ∧
    (wireOne nsC3 gsC3 { relC3 with from_ := "diagram.g", to_ := "diagram.a" } =
      (TraceEvent.newEdge (some "fan") none (some "dashed") ::
        [TraceEvent.edgeCall .rsh true (.nodesArg [1, 2]),
         TraceEvent.nodeCall 0 .rsh true (.edgesArg [1, 2])], none) ∧
     blockPairs (wireOne nsC3 gsC3 { relC3 with from_ := "diagram.g", to_ := "diagram.a" }).1 =
       [(.rsh, 1, some "fan", none, some "dashed"),
        (.rsh, 2, some "fan", none, some "dashed")]) :=
  ⟨c3_fanout_amended.1 nsC3 gsC3 relC3 0 0 (by decide) (by decide),
   c3_fanout_amended.2 nsC3 gsC3 _ 0 0 (by decide) (by decide)⟩

/-- C4 counterexample.  The claim says the error message reports the original
document-local target name with the root-sentinel prefix stripped.  The code
uses `relationship.to.replace('diagram.', '')`, which removes every occurrence
of the substring: for a relation whose document-local target name is
`"diagram.ghost"` (backlog target `"diagram.diagram.ghost"`), the message
reports `"ghost"`, not the document-local name `"diagram.ghost"`. -/
theorem c4_claim_counterexample :
    (entrypoint catAll docC4 St.empty).2 = some (Err.unresolvedTarget "ghost") ∧
    ("ghost" : String) ≠ "diagram.ghost" := by
  decide

/-- C4 amended.  A relationship whose `to` identifier is absent from the
namespace at wiring time aborts the run with the unresolved-target error whose
message is the backlog target with every occurrence of `"diagram."` removed
(this equals the document-local target name whenever that name does not itself
contain `"diagram."`); the only backend interaction issued for that
relationship is the connector creation — no attachment call — and no later
backlog record is wired. -/
theorem c4_unresolved_target_amended (R : List (String × Handle))
    (G : List (List Nat)) (rel : Relationship) (rest : List Relationship)
    (h : nsGet R rel.to_ = none) :
    wireAll R G (rel :: rest) =
      ([TraceEvent.newEdge rel.label rel.color rel.style],
       some (Err.unresolvedTarget (stripDiagramAll rel.to_))) := by
  simp [wireAll, wireOne, h]

theorem c4_unresolved_target_amended_witness :
    wireAll [] [] [relC2] =
      ([TraceEvent.newEdge (some "l") (some "red") none],
       some (Err.unresolvedTarget (stripDiagramAll "diagram.b"))) :=
  c4_unresolved_target_amended [] [] relC2 [] (by decide)

/-- C5.  A leaf resource whose `type` string the external element catalog
cannot resolve makes the whole run fail: any tree containing such a leaf is
processed with an error result, and when the failing leaf is reached the run
aborts with the resource-type-not-found error carrying the offending dotted
type path, propagating out of `entrypoint` (nothing is wired, no output is
produced, and the failure happens before the resource is registered). -/
theorem c5_unknown_type_aborts :
    (∀ (catalog : String → Bool) (rs : ResourceList) (p : String)
       (g : Option Nat) (st : St),
      hasUnresolvableLeaf catalog rs = true →
      ((process_list catalog rs p g st).2).isSome = true) ∧
    (∀ (catalog : String → Bool) (i t n : String) (rof : ResourceList)
       (rrel : List RelationDecl) (rest : ResourceList) (st : St),
      ¬t = "cluster" → ¬t = "group" → catalog t = false →
      entrypoint catalog (.cons (.mk i t n rof rrel) rest) st =
        (st, some (Err.resourceTypeNotFound t))) := by
  constructor
  · exact fun catalog rs p g st h => process_list_err_of_bad_leaf rs catalog p g st h
  · intro catalog i t n rof rrel rest st h1 h2 h3
    simp [entrypoint, process_list, h1, h2, h3]

theorem c5_unknown_type_aborts_witness :
    ((process_list (fun _ => false) docC1 "diagram" none St.empty).2).isSome = true ∧
    entrypoint (fun _ => false) docC4 St.empty =
      (St.empty, some (Err.resourceTypeNotFound "p.c.S")) :=
  ⟨c5_unknown_type_aborts.1 (fun _ => false) docC1 "diagram" none St.empty (by decide),
   c5_unknown_type_aborts.2 (fun _ => false) "a" "p.c.S" "A" .nil _ .nil St.empty
     (by decide) (by decide) rfl⟩

/-- C6 counterexample.  The claim says a relationship whose endpoints are both
collections raises an explicit unsupported-shape error.  The code's wiring
loop has branches only for node-node, group-node and node-group, so a
group-to-group relationship matches none of them: on a concrete document whose
only relationship joins two groups, the run completes with no error and no
attachment call is ever issued. -/
theorem c6_claim_counterexample :
    (entrypoint catAll docC6 St.empty).2 = none ∧
    ((entrypoint catAll docC6 St.empty).1.trace.filter isAttachCall) = [] := by
  decide

/-- C6 amended.  A relationship whose endpoints both resolve to groups is
silently dropped by the wiring loop: the connector object is created, but no
attachment call is issued and no error is raised. -/
theorem c6_group_to_group_amended (R : List (String × Handle))
    (G : List (List Nat)) (rel : Relationship) (g1 g2 : Nat)
    (h1 : nsGet R rel.from_ = some (Handle.group g1))
    (h2 : nsGet R rel.to_ = some (Handle.group g2)) :
    wireOne R G rel = ([TraceEvent.newEdge rel.label rel.color rel.style], none) := by
  simp [wireOne, h1, h2]

theorem c6_group_to_group_amended_witness :
    wireOne nsC6 [[0], [1]] relC6 = ([TraceEvent.newEdge none none none], none) :=
  c6_group_to_group_amended nsC6 [[0], [1]] relC6 0 1 (by decide) (by decide)

/-- C7.  Connectors are issued to the rendering backend strictly in backlog
order — a successful wiring pass emits exactly the concatenation of the
per-relationship event blocks, in backlog order — and the backlog produced by
a successful walk is exactly the document's pre-order traversal record list,
with a resource's own relations appended before its children's (`relates`
before `of`); in particular the records (and hence the connectors) of an
earlier sibling precede those of a later sibling. -/
theorem c7_backlog_order :
    (∀ (catalog : String → Bool) (rs : ResourceList) (p : String)
       (g : Option Nat) (st st' : St),
      process_list catalog rs p g st = (st', none) →
      st'.relationships = st.relationships ++ preorderRels rs p) ∧
    (∀ (R : List (String × Handle)) (G : List (List Nat))
       (rels : List Relationship) (evs : List TraceEvent),
      wireAll R G rels = (evs, none) →
      evs = (rels.map fun rel => (wireOne R G rel).1).flatten) :=
  ⟨fun catalog rs p g st st' h => process_list_rels rs catalog p g st st' h,
   fun R G rels evs h => wireAll_flatten rels R G evs h⟩

theorem c7_backlog_order_witness :
    (process_list catAll docC7 "diagram" none St.empty).1.relationships =
      St.empty.relationships ++ preorderRels docC7 "diagram" ∧
    (wireAll nsC2 [] [relC2]).1 =
      ([relC2].map fun rel => (wireOne nsC2 [] rel).1).flatten :=
  ⟨c7_backlog_order.1 catAll docC7 "diagram" none St.empty
      (process_list catAll docC7 "diagram" none St.empty).1 (by decide),
   c7_backlog_order.2 nsC2 [] [relC2] (wireAll nsC2 [] [relC2]).1 (by decide)⟩

/-- C8.  Processing a `GROUP` resource registers the freshly created empty
group in the namespace under its resolved identifier as the very first
recorded action — before any of its `relates` records and before any of its
children's events — and after the whole subtree is processed (even if a
descendant failed) the resolved identifier still looks up to that group
handle, so descendants and later document positions can target it. -/
theorem c8_group_registered_first (catalog : String → Bool) (i n : String)
    (rof : ResourceList) (rrel : List RelationDecl)
    (p : String) (g : Option Nat) (st : St) :
    (∃ suffix,
      (process_list catalog (.cons (.mk i "group" n rof rrel) .nil) p g st).1.trace =
        st.trace ++ TraceEvent.register (p ++ "." ++ i) :: suffix) ∧
    nsGet (process_list catalog (.cons (.mk i "group" n rof rrel) .nil) p g st).1.resources
        (p ++ "." ++ i) = some (Handle.group st.groups.length) := by
  rw [process_list_group_eq]
  cases heq : process_list catalog rof (p ++ "." ++ i) (some st.groups.length)
      (appendRels (p ++ "." ++ i) rrel (registerGroup (p ++ "." ++ i) st)) with
  | mk st3 e =>
    obtain ⟨tr, htr⟩ := process_list_trace rof catalog (p ++ "." ++ i)
      (some st.groups.length)
      (appendRels (p ++ "." ++ i) rrel (registerGroup (p ++ "." ++ i) st))
    rw [heq] at htr
    simp only [] at htr
    rw [appendRels_trace] at htr
    have h1 := process_list_nsGet rof catalog (p ++ "." ++ i)
      (some st.groups.length)
      (appendRels (p ++ "." ++ i) rrel (registerGroup (p ++ "." ++ i) st))
      (p ++ "." ++ i) le_rfl
    rw [heq] at h1
    simp only [] at h1
    rw [appendRels_resources] at h1
    cases e with
    | some err =>
      constructor
      · refine ⟨(rrel.map fun r => TraceEvent.recordRel (relOf (p ++ "." ++ i) r)) ++ tr, ?_⟩
        simp only []
        rw [htr]
        simp [registerGroup]
      · simp only []
        rw [h1]
        simp [registerGroup, nsGet]
    | none =>
      constructor
      · refine ⟨(rrel.map fun r => TraceEvent.recordRel (relOf (p ++ "." ++ i) r)) ++ tr, ?_⟩
        simp only []
        rw [process_list_nil_eq]
        simp only []
        rw [htr]
        simp [registerGroup]
      · simp only []
        rw [process_list_nil_eq]
        simp only []
        rw [h1]
        simp [registerGroup, nsGet]

/-- C9.  The claim says the namespace and backlog are fully reset before each
run, including after a run that aborted with an error.  The code resets the
globals only at the very end of a successful `entrypoint` call, after the
wiring loop; an exception skips those lines.  Concretely: a first run that
aborts on an unresolved target leaves both globals populated, and a second,
independent document processed on the same state fails with the first run's
leftover unresolved-target error even though it declares no relation at all. -/
theorem c9_state_leaks_across_runs :
    (entrypoint catAll docC9fail St.empty).2 = some (Err.unresolvedTarget "ghost") ∧
    (entrypoint catAll docC9fail St.empty).1.relationships ≠ [] ∧
    (entrypoint catAll docC9fail St.empty).1.resources ≠ [] ∧
    (entrypoint catAll docC9clean (entrypoint catAll docC9fail St.empty).1).2 =
      some (Err.unresolvedTarget "ghost") := by
  decide

/-- C10.  The cluster branch of `process_resource` never reads `relates`:
processing a `CLUSTER` resource with any `relates` list is literally the same
computation as processing it with none — no relationship record is appended
for the cluster itself, and no error is raised about them; only descendants
contribute records. -/
theorem c10_cluster_relates_ignored (catalog : String → Bool) (i n : String)
    (rof : ResourceList) (rrel : List RelationDecl) (rest : ResourceList)
    (p : String) (g : Option Nat) (st : St) :
    process_list catalog (.cons (.mk i "cluster" n rof rrel) rest) p g st =
      process_list catalog (.cons (.mk i "cluster" n rof []) rest) p g st := by
  simp [process_list]



theorem countOpens_append (a b : List TraceEvent) :
    countOpens (a ++ b) = countOpens a + countOpens b := by
  simp [countOpens, List.filter_append]

theorem countCloses_append (a b : List TraceEvent) :
    countCloses (a ++ b) = countCloses a + countCloses b := by
  simp [countCloses, List.filter_append]

theorem countOpens_recordRels (f : String) (rels : List RelationDecl) :
    countOpens (rels.map fun r => TraceEvent.recordRel (relOf f r)) = 0 := by
  induction rels with
  | nil => rfl
  | cons r rest ih => simp [countOpens, List.filter]

theorem countCloses_recordRels (f : String) (rels : List RelationDecl) :
    countCloses (rels.map fun r => TraceEvent.recordRel (relOf f r)) = 0 := by
  induction rels with
  | nil => rfl
  | cons r rest ih => simp [countCloses, List.filter]

/-- On a successful walk the cluster scopes are balanced: the trace grows by a
segment with as many scope-opens as scope-closes.  (Together with the C1
failing-run evaluation this isolates the imbalance to the exception path.) -/
theorem process_list_balanced_on_success :
    ∀ (rs : ResourceList) (catalog : String → Bool) (p : String)
      (g : Option Nat) (st st' : St),
      process_list catalog rs p g st = (st', none) →
      countOpens st'.trace + countCloses st.trace =
        countCloses st'.trace + countOpens st.trace := by
  intro rs
  induction rs using resourceList_ind with
  | hnil =>
    intro catalog p g st st' h
    rw [process_list_nil_eq] at h
    cases h
    omega
  | hcons i t n of rel rest ihof ihrest =>
    intro catalog p g st st' h
    simp only [process_list] at h
    split_ifs at h with ht hg hcat
    · -- cluster
      split at h
      · simp at h
      · rename_i st2 heq
        have h1 := ihof catalog (p ++ "." ++ i) none _ _ heq
        have h2 := ihrest catalog p g _ _ h
        simp only [clusterOpen, clusterClose] at h1 h2
        rw [countOpens_append, countCloses_append] at h1 h2
        simp [countOpens, countCloses, List.filter] at h1 h2 ⊢
        omega
    · -- group
      split at h
      · simp at h
      · rename_i st3 heq
        have h1 := ihof catalog (p ++ "." ++ i) _ _ _ heq
        have h2 := ihrest catalog p g _ _ h
        rw [appendRels_trace] at h1
        simp only [registerGroup] at h1
        rw [countOpens_append, countCloses_append, countOpens_append,
          countCloses_append, countOpens_recordRels, countCloses_recordRels] at h1
        simp [countOpens, countCloses, List.filter] at h1 h2 ⊢
        omega
    · -- leaf, resolves
      have h2 := ihrest catalog p g _ _ h
      rw [addToGroup_trace, appendRels_trace] at h2
      simp only [registerNode] at h2
      rw [countOpens_append, countCloses_append, countOpens_append,
        countCloses_append, countOpens_recordRels, countCloses_recordRels] at h2
      simp [countOpens, countCloses, List.filter] at h2 ⊢
      omega
    · simp at h

end Yaml2Diagram
